import Mathlib

/-!
Verification of the GeoSup VOID/visma2 dataset-preparation core
(`setup/setup_one_sequence_visma2.py`).

The development shallowly embeds the pose algebra (`compose_pose`,
`inverse_pose`, `list2pose`), the triplet constructor
(`construct_triplet`) and the per-packet synchronization / sliding-window
loop of `process_one_sequence`.  Numeric data is modelled by rationals
(every IEEE double is a rational); the Euclidean norm comparison of the
parallax check is stated over the reals exactly as
`np.linalg.norm(t) < spatial_interval`.
-/

namespace Visma2

/-- A 3-vector, modelling a numpy translation column `g[:3, 3]`. -/
structure Vec3 (α : Type) where
  x : α
  y : α
  z : α
deriving DecidableEq, Inhabited

/-- A 3x3 matrix with explicit entries, modelling the rotation block
`g[:3, :3]` of a numpy pose matrix.  `mIJ` is row `I`, column `J`. -/
structure Mat3 (α : Type) where
  m00 : α
  m01 : α
  m02 : α
  m10 : α
  m11 : α
  m12 : α
  m20 : α
  m21 : α
  m22 : α
deriving DecidableEq, Inhabited

section Algebra

variable {α : Type} [CommRing α]

/-- Matrix product of two 3x3 matrices (numpy `A.dot(B)` on the rotation
blocks). -/
def Mat3.mul (A B : Mat3 α) : Mat3 α :=
  ⟨A.m00 * B.m00 + A.m01 * B.m10 + A.m02 * B.m20,
   A.m00 * B.m01 + A.m01 * B.m11 + A.m02 * B.m21,
   A.m00 * B.m02 + A.m01 * B.m12 + A.m02 * B.m22,
   A.m10 * B.m00 + A.m11 * B.m10 + A.m12 * B.m20,
   A.m10 * B.m01 + A.m11 * B.m11 + A.m12 * B.m21,
   A.m10 * B.m02 + A.m11 * B.m12 + A.m12 * B.m22,
   A.m20 * B.m00 + A.m21 * B.m10 + A.m22 * B.m20,
   A.m20 * B.m01 + A.m21 * B.m11 + A.m22 * B.m21,
   A.m20 * B.m02 + A.m21 * B.m12 + A.m22 * B.m22⟩

/-- Matrix transpose (numpy `R.T`). -/
def Mat3.transpose (A : Mat3 α) : Mat3 α :=
  ⟨A.m00, A.m10, A.m20, A.m01, A.m11, A.m21, A.m02, A.m12, A.m22⟩

/-- The identity 3x3 matrix. -/
def Mat3.one : Mat3 α := ⟨1, 0, 0, 0, 1, 0, 0, 0, 1⟩

/-- Matrix-vector product (numpy `R.dot(t)` on a translation column). -/
def matVec (A : Mat3 α) (v : Vec3 α) : Vec3 α :=
  ⟨A.m00 * v.x + A.m01 * v.y + A.m02 * v.z,
   A.m10 * v.x + A.m11 * v.y + A.m12 * v.z,
   A.m20 * v.x + A.m21 * v.y + A.m22 * v.z⟩

/-- Componentwise vector addition. -/
def Vec3.add (v w : Vec3 α) : Vec3 α := ⟨v.x + w.x, v.y + w.y, v.z + w.z⟩

/-- Componentwise vector negation (numpy unary minus). -/
def Vec3.neg (v : Vec3 α) : Vec3 α := ⟨-v.x, -v.y, -v.z⟩

/-- The zero vector. -/
def Vec3.zero : Vec3 α := ⟨0, 0, 0⟩

/-- Squared Euclidean norm of a 3-vector, so that `np.linalg.norm v`
is `Real.sqrt (vnormSq v)`. -/
def vnormSq (v : Vec3 α) : α := v.x * v.x + v.y * v.y + v.z * v.z

/-- A rigid transform `[R|t]`, the embedding of a 3x4 (or, when `homog`
is true, 4x4 homogeneous with bottom row `[0,0,0,1]`) numpy pose matrix.
`homog` records which of the two shapes the array had. -/
structure Pose (α : Type) where
  R : Mat3 α
  t : Vec3 α
  homog : Bool
deriving DecidableEq, Inhabited

/-- `compose_pose(g1, g2)`: rotation `R1.dot(R2)`, translation
`R1.dot(t2) + t1`; the result has a `[0,0,0,1]` row appended exactly when
`g1` (the first argument) was 4x4, i.e. the result's shape is `g1`'s. -/
def compose_pose (g1 g2 : Pose α) : Pose α :=
  ⟨g1.R.mul g2.R, (matVec g1.R g2.t).add g1.t, g1.homog⟩

/-- `inverse_pose(g1)`: `[R.T | -R.T * t]`, shape-preserving. -/
def inverse_pose (g1 : Pose α) : Pose α :=
  ⟨g1.R.transpose, (matVec g1.R.transpose g1.t).neg, g1.homog⟩

end Algebra

/-- `list2pose(v)`: reshape a row-major list of 12 numbers into a 3x4
pose `[R|t]` (row i of the array is `v[4i..4i+3]`, whose first three
entries are a rotation row and whose last entry is a translation
component). -/
def list2pose (v : List ℚ) : Pose ℚ :=
  ⟨⟨v.getD 0 0, v.getD 1 0, v.getD 2 0,
    v.getD 4 0, v.getD 5 0, v.getD 6 0,
    v.getD 8 0, v.getD 9 0, v.getD 10 0⟩,
   ⟨v.getD 3 0, v.getD 7 0, v.getD 11 0⟩,
   false⟩

/-- The strict norm comparison used by the parallax check:
`np.linalg.norm(t) < spatial_interval` with the exact real square root. -/
def normLT (v : Vec3 ℚ) (s : ℚ) : Prop :=
  Real.sqrt ((vnormSq v : ℚ) : ℝ) < (s : ℝ)

instance normLT.decidable (v : Vec3 ℚ) (s : ℚ) : Decidable (normLT v s) :=
  decidable_of_iff (0 < s ∧ vnormSq v < s ^ 2) (by
    unfold normLT
    constructor
    · rintro ⟨hs, hq⟩
      have hs' : (0 : ℝ) < (s : ℝ) := by exact_mod_cast hs
      refine (Real.sqrt_lt' hs').mpr ?_
      exact_mod_cast hq
    · intro h
      have hs' : (0 : ℝ) < (s : ℝ) := lt_of_le_of_lt (Real.sqrt_nonneg _) h
      have hs : 0 < s := by exact_mod_cast hs'
      refine ⟨hs, ?_⟩
      have hq := (Real.sqrt_lt' hs').mp h
      exact_mod_cast hq)

/-- True exactly on `Except.error`, modelling "the call raised". -/
def isErr {ε α : Type} : Except ε α → Bool
  | Except.error _ => true
  | Except.ok _ => false

/-- A decoded colour image: a list of pixel rows (channel detail is
irrelevant to the core, one integer per pixel). -/
abbrev Image := List (List ℤ)

/-- A depth map: a grid of rational metric depths. -/
abbrev DepthMap := List (List ℚ)

/-- `np.concatenate([a, b], axis=1)`: rows joined side by side. -/
def hconcat (a b : Image) : Image :=
  List.zipWith (fun r1 r2 => r1 ++ r2) a b

/-- The `output_paths` dict of one synchronized sample: destination
files for the rgb, pose and depth artifacts. -/
structure OutPaths where
  rgb : String
  pose : String
  depth : String
deriving DecidableEq, Inhabited

/-- One synchronized sample, the tuple
`(rgb, gwc, Rg, ground-truth depth, output_paths)` pushed into the
circular buffer.  `paths` models the tuple's last slot (`sample[-1]`).
`ts` additionally records the reference-stream timestamp `now` the
sample was created at (the value `output_paths` was formatted from);
it is verification instrumentation, not consulted by any operation. -/
structure Sample where
  rgb : Image
  gwc : Pose ℚ
  Rg : Mat3 ℚ
  depth : DepthMap
  paths : OutPaths
  ts : ℚ
deriving DecidableEq, Inhabited

/-- The value returned by a successful `construct_triplet`. -/
structure TripletOut where
  rgb_concat : Image
  gwc_concat : List (Pose ℚ)
  Rg_concat : List (Mat3 ℚ)
  dense_ref : DepthMap
  ref_paths : OutPaths
deriving DecidableEq, Inhabited

/-- `construct_triplet(circbuf, temporal_interval, spatial_interval)`:
stacks the poses and gravity rotations of `circbuf[temporal_interval*i]`
for `i = 0, 1, 2`, forms the relative poses
`g10 = compose_pose(inverse_pose(gwc[1]), gwc[0])` and
`g12 = compose_pose(inverse_pose(gwc[1]), gwc[2])`, raises `ValueError`
when either relative translation norm is below `spatial_interval`, and
otherwise returns the horizontally concatenated images, the pose and
rotation stacks, and the middle sample's depth map and output paths. -/
def construct_triplet (circbuf : List Sample) (temporal_interval : ℕ)
    (spatial_interval : ℚ) : Except String TripletOut :=
  let gwc_concat : List (Pose ℚ) :=
    (List.range 3).map fun i => (circbuf.getD (temporal_interval * i) default).gwc
  let Rg_concat : List (Mat3 ℚ) :=
    (List.range 3).map fun i => (circbuf.getD (temporal_interval * i) default).Rg
  let g10 := compose_pose (inverse_pose (gwc_concat.getD 1 default)) (gwc_concat.getD 0 default)
  let g12 := compose_pose (inverse_pose (gwc_concat.getD 1 default)) (gwc_concat.getD 2 default)
  if normLT g10.t spatial_interval ∨ normLT g12.t spatial_interval then
    Except.error ("Not enough parallel!!!")
  else
    Except.ok
      { rgb_concat :=
          hconcat ((circbuf.getD (0 * temporal_interval) default).rgb)
            (hconcat ((circbuf.getD (1 * temporal_interval) default).rgb)
              ((circbuf.getD (2 * temporal_interval) default).rgb)),
        gwc_concat := gwc_concat,
        Rg_concat := Rg_concat,
        dense_ref := (circbuf.getD temporal_interval default).depth,
        ref_paths := (circbuf.getD temporal_interval default).paths }

/-- One message of the colour capture-log stream: its timestamp
(`rgb_msg.timestamp.to_sec()`) and the decoded image
(`bridge.imgmsg_to_cv2(rgb_msg.message)`; decoding is an external
collaborator, so the stream yields decoded images directly). -/
structure RGBMsg where
  ts : ℚ
  img : Image
deriving DecidableEq, Inhabited

/-- One message of the depth capture-log stream: its timestamp and the
decoded raw depth grid in integer-valued millimetres. -/
structure DepthMsg where
  ts : ℚ
  depthRaw : List (List ℚ)
deriving DecidableEq, Inhabited

/-- `depth / 1000.0`: millimetres to metres, elementwise. -/
def mmToM (d : List (List ℚ)) : DepthMap :=
  d.map fun row => row.map fun v => v / 1000

/-- One packet of the trajectory log: timestamp `ts`, the 12-number
row-major 3x4 pose `gwc`, and the 2-number gravity tilt `wg`. -/
structure Packet where
  ts : ℚ
  gwc : List ℚ
  wg : ℚ × ℚ
deriving DecidableEq, Inhabited

/-- The run configuration.  `rodrigues` stands for the external
`cv2.Rodrigues`-based `list2R` (an excluded collaborator whose values
the core never inspects); the other fields mirror `opt`. -/
structure Config where
  temporal_interval : ℕ
  spatial_interval : ℚ
  output_dir : String
  rodrigues : ℚ × ℚ → Mat3 ℚ

/-- The hardcoded synchronization tolerance `dt = 0.025` seconds. -/
def dt : ℚ := 25 / 1000

/-- Left-pad the decimal digits of `k` with zeros to width 4. -/
def pad4 (k : ℕ) : String :=
  let s := toString k
  String.mk (List.replicate (4 - s.length) '0') ++ s

/-- Python fixed 4-decimal formatting of a timestamp (the basename
stem).  Rounding of the exact rational to 1/10000 uses `round`
(half-up); the source rounds the underlying double half-to-even, which
agrees except on exact ties. -/
def format4 (t : ℚ) : String :=
  let n : ℤ := round (t * 10000)
  (if n < 0 then "-" else "") ++ toString (n.natAbs / 10000) ++ "." ++ pad4 (n.natAbs % 10000)

/-- The `output_paths` dict built for the reference timestamp `now`:
`os.path.join(output_dir, sub, basename + ext)` for the three artifact
kinds, with the shared stem `basename = format4 now`. -/
def outputPaths (output_dir : String) (basename : String) : OutPaths :=
  { rgb := output_dir ++ "/rgb/" ++ basename ++ ".jpg",
    pose := output_dir ++ "/pose/" ++ basename ++ ".pkl",
    depth := output_dir ++ "/depth/" ++ basename ++ ".npy" }

/-- The synchronized sample appended to the circular buffer for packet
`p` once the capture-log pair `(r, d)` has been accepted. -/
def mkSample (cfg : Config) (p : Packet) (r : RGBMsg) (d : DepthMsg) : Sample :=
  { rgb := r.img,
    gwc := list2pose p.gwc,
    Rg := cfg.rodrigues p.wg,
    depth := mmToM d.depthRaw,
    paths := outputPaths cfg.output_dir (format4 p.ts),
    ts := p.ts }

/-- Append to a `deque(maxlen := C)`: the new element goes to the tail
and everything beyond the last `C` elements falls off the front. -/
def ringPush {α : Type} (C : ℕ) (cb : List α) (a : α) : List α :=
  (cb ++ [a]).drop (cb.length + 1 - C)

/-- One artifact-writer invocation: the three destination paths and the
data written to them (`cv2.imwrite`, `pickle.dump` of the pose and
rotation stacks, `np.save` of the reference depth).  `midTs` is
verification instrumentation recording the timestamp of the middle
(reference) window sample at the moment of the write. -/
structure WriteEvent where
  rgbPath : String
  rgbData : Image
  posePath : String
  poseGwc : List (Pose ℚ)
  poseRg : List (Mat3 ℚ)
  depthPath : String
  depthData : DepthMap
  midTs : ℚ
deriving DecidableEq, Inhabited

/-- The mutable state of the `process_one_sequence` loop: the two
unconsumed capture-log stream suffixes, the circular buffer, the
accepted-sample counter `count`, plus two observers: `attempts` counts
`construct_triplet` invocations and `writes` the artifact writes. -/
structure State where
  color : List RGBMsg
  depth : List DepthMsg
  circbuf : List Sample
  count : ℕ
  attempts : ℕ
  writes : List WriteEvent
deriving DecidableEq, Inhabited

/-- The catch-up loop `while rgb_msg.timestamp.to_sec() < now - dt`:
given the currently held pair `(r, d)` and the stream suffixes, advance
both paired cursors in lockstep while the held image timestamp is
earlier than `now - dt`.  `none` models the fatal `StopIteration` when
a stream runs out. -/
def catchUp (now : ℚ) (r : RGBMsg) (d : DepthMsg) (rs : List RGBMsg)
    (ds : List DepthMsg) :
    Option (RGBMsg × DepthMsg × List RGBMsg × List DepthMsg) :=
  if r.ts < now - dt then
    match rs, ds with
    | r' :: rs', d' :: ds' => catchUp now r' d' rs' ds'
    | [], _ => none
    | _ :: _, [] => none
  else
    some (r, d, rs, ds)

/-- The body of `for i, packet in enumerate(dataset.packets)`: draw one
pair from the streams unconditionally (`.next()`), run the catch-up
loop, skip the record when the held image timestamp exceeds `now + dt`,
and otherwise append the synchronized sample to the circular buffer and,
when the buffer is full, attempt `construct_triplet`, writing the
artifacts on success and only warning on `ValueError`.  `none` models
the fatal stream exhaustion. -/
def stepPacket (cfg : Config) (st : State) (p : Packet) : Option State :=
  match st.color, st.depth with
  | r :: rs, d :: ds =>
    match catchUp p.ts r d rs ds with
    | some (r', d', rs', ds') =>
      if r'.ts > p.ts + dt then
        some { st with color := rs', depth := ds' }
      else
        let sample := mkSample cfg p r' d'
        let maxlen := cfg.temporal_interval * 2 + 1
        let circbuf' := ringPush maxlen st.circbuf sample
        if circbuf'.length = maxlen then
          match construct_triplet circbuf' cfg.temporal_interval cfg.spatial_interval with
          | Except.ok t =>
            some { color := rs', depth := ds', circbuf := circbuf',
                   count := st.count + 1, attempts := st.attempts + 1,
                   writes := st.writes ++
                     [{ rgbPath := t.ref_paths.rgb, rgbData := t.rgb_concat,
                        posePath := t.ref_paths.pose, poseGwc := t.gwc_concat,
                        poseRg := t.Rg_concat,
                        depthPath := t.ref_paths.depth, depthData := t.dense_ref,
                        midTs := (circbuf'.getD cfg.temporal_interval default).ts }] }
          | Except.error _ =>
            some { color := rs', depth := ds', circbuf := circbuf',
                   count := st.count + 1, attempts := st.attempts + 1,
                   writes := st.writes }
        else
          some { color := rs', depth := ds', circbuf := circbuf',
                 count := st.count + 1, attempts := st.attempts,
                 writes := st.writes }
    | none => none
  | _, _ => none

/-- Fold `stepPacket` over the trajectory-log packets in order. -/
def runPackets (cfg : Config) : State → List Packet → Option State
  | st, [] => some st
  | st, p :: ps =>
    match stepPacket cfg st p with
    | some st' => runPackets cfg st' ps
    | none => none

/-- The loop state before the first packet: full streams, empty buffer,
zero counters. -/
def initState (color : List RGBMsg) (depth : List DepthMsg) : State :=
  { color := color, depth := depth, circbuf := [], count := 0, attempts := 0, writes := [] }

/-- The synchronization-relevant observables of a loop state: everything
except the timestamps of the unconsumed depth-stream suffix (whose
payloads are kept).  Two states with equal `stObs` accept the same
reference records and pair them with the same depth payloads. -/
def stObs (st : State) :
    List RGBMsg × List (List (List ℚ)) × List Sample × ℕ × ℕ × List WriteEvent :=
  (st.color, st.depth.map DepthMsg.depthRaw, st.circbuf, st.count, st.attempts, st.writes)

/-- The depth-timestamp-free view of a `catchUp` result. -/
def cuObs (x : RGBMsg × DepthMsg × List RGBMsg × List DepthMsg) :
    RGBMsg × List (List ℚ) × List RGBMsg × List (List (List ℚ)) :=
  (x.1, x.2.1.depthRaw, x.2.2.1, x.2.2.2.map DepthMsg.depthRaw)

/-- The counting invariant of the loop: the buffer length is `count`
clipped at the capacity, and the number of `construct_triplet` attempts
is `count + 1 - capacity` (truncated subtraction). -/
def loopInv (cfg : Config) (st : State) : Prop :=
  st.circbuf.length = min st.count (cfg.temporal_interval * 2 + 1) ∧
  st.attempts = st.count + 1 - (cfg.temporal_interval * 2 + 1)

/-- The path-bookkeeping invariant of the loop: every buffered sample's
output paths were formatted from its own reference timestamp, and every
artifact write used the three paths formatted from the timestamp of the
middle window sample at the moment of the write. -/
def pathsInv (cfg : Config) (st : State) : Prop :=
  (∀ s ∈ st.circbuf, s.paths = outputPaths cfg.output_dir (format4 s.ts)) ∧
  (∀ w ∈ st.writes,
    w.rgbPath = (outputPaths cfg.output_dir (format4 w.midTs)).rgb ∧
    w.posePath = (outputPaths cfg.output_dir (format4 w.midTs)).pose ∧
    w.depthPath = (outputPaths cfg.output_dir (format4 w.midTs)).depth)

/-! Concrete fixtures used by witnesses and counterexamples. -/

/-- A one-pixel image with value `k`. -/
def pix (k : ℤ) : Image := [[k]]

/-- The 12-number row-major 3x4 pose with identity rotation and
translation `(tx, 0, 0)`. -/
def poseList (tx : ℚ) : List ℚ := [1, 0, 0, tx, 0, 1, 0, 0, 0, 0, 1, 0]

/-- A configuration with `temporal_interval = 2` (window capacity 5). -/
def cfg2 : Config :=
  { temporal_interval := 2, spatial_interval := 1 / 100, output_dir := "out",
    rodrigues := fun _ => Mat3.one }

/-- A configuration with `temporal_interval = 1` (window capacity 3). -/
def cfg1 : Config :=
  { temporal_interval := 1, spatial_interval := 1 / 100, output_dir := "out",
    rodrigues := fun _ => Mat3.one }

/-- Ten colour messages at timestamps 1..10. -/
def colorTen : List RGBMsg :=
  (List.range 10).map fun (k : ℕ) => { ts := (k : ℚ) + 1, img := pix (k : ℤ) }

/-- Ten depth messages at timestamps 1..10, raw value 1500 mm. -/
def depthTen : List DepthMsg :=
  (List.range 10).map fun (k : ℕ) => { ts := (k : ℚ) + 1, depthRaw := [[1500]] }

/-- Ten trajectory packets at timestamps 1..10, translating by 0.1 per
step. -/
def pktsTen : List Packet :=
  (List.range 10).map fun (k : ℕ) =>
    { ts := (k : ℚ) + 1, gwc := poseList (((k : ℚ) + 1) / 10), wg := (0, 0) }

/-- Three colour messages at timestamps 1, 2, 3. -/
def colorThree : List RGBMsg :=
  [{ ts := 1, img := pix 1 }, { ts := 2, img := pix 2 }, { ts := 3, img := pix 3 }]

/-- Three depth messages at timestamps 1, 2, 3. -/
def depthThree : List DepthMsg :=
  [{ ts := 1, depthRaw := [[1500]] }, { ts := 2, depthRaw := [[2500]] },
   { ts := 3, depthRaw := [[3500]] }]

/-- Three packets at timestamps 1, 2, 3, translating by 0.1 per step. -/
def pktsThree : List Packet :=
  [{ ts := 1, gwc := poseList (1 / 10), wg := (0, 0) },
   { ts := 2, gwc := poseList (2 / 10), wg := (0, 0) },
   { ts := 3, gwc := poseList (3 / 10), wg := (0, 0) }]

/-- A concrete synchronized sample at timestamp `ts` with pose
translation `tx`. -/
def sampleAt (ts tx : ℚ) : Sample :=
  { rgb := pix 7, gwc := list2pose (poseList tx), Rg := Mat3.one,
    depth := [[3 / 2]], paths := outputPaths "out" (format4 ts), ts := ts }

instance exceptDecEq {ε α : Type} [DecidableEq ε] [DecidableEq α] :
    DecidableEq (Except ε α) := fun x y =>
  match x, y with
  | Except.error a, Except.error b =>
    if h : a = b then isTrue (by rw [h]) else isFalse (fun hh => by cases hh; exact h rfl)
  | Except.ok a, Except.ok b =>
    if h : a = b then isTrue (by rw [h]) else isFalse (fun hh => by cases hh; exact h rfl)
  | Except.error _, Except.ok _ => isFalse (fun hh => by cases hh)
  | Except.ok _, Except.error _ => isFalse (fun hh => by cases hh)

/-- Four colour messages at timestamps 0.9, 0.95, 1, 2. -/
def colorCatch : List RGBMsg :=
  [⟨9 / 10, pix 1⟩, ⟨95 / 100, pix 2⟩, ⟨1, pix 3⟩, ⟨2, pix 4⟩]

/-- Four depth messages at timestamps 0.9, 0.95, 1, 2. -/
def depthCatch : List DepthMsg :=
  [⟨9 / 10, [[1500]]⟩, ⟨95 / 100, [[1500]]⟩, ⟨1, [[1500]]⟩, ⟨2, [[1500]]⟩]

/-! Theorems.  `Rat`'s arithmetic is `@[irreducible]` in Batteries;
making it semireducible locally lets `decide` evaluate the embedded
operations on the concrete witness inputs. -/

attribute [local semireducible] Rat.add Rat.mul Rat.sub Rat.inv Rat.ofScientific

theorem Mat3.transpose_transpose {α : Type} (A : Mat3 α) :
    A.transpose.transpose = A := by
  cases A
  rfl

section AlgebraLemmas

variable {α : Type} [CommRing α]

theorem matVec_mul (A B : Mat3 α) (v : Vec3 α) :
    matVec (A.mul B) v = matVec A (matVec B v) := by
  cases A
  cases B
  cases v
  simp only [matVec, Mat3.mul, Vec3.mk.injEq]
  refine ⟨by ring, by ring, by ring⟩

theorem matVec_one (v : Vec3 α) : matVec Mat3.one v = v := by
  cases v
  simp only [matVec, Mat3.one, Vec3.mk.injEq]
  refine ⟨by ring, by ring, by ring⟩

theorem matVec_neg (A : Mat3 α) (v : Vec3 α) :
    matVec A v.neg = (matVec A v).neg := by
  cases A
  cases v
  simp only [matVec, Vec3.neg, Vec3.mk.injEq]
  refine ⟨by ring, by ring, by ring⟩

theorem Vec3.neg_neg (v : Vec3 α) : v.neg.neg = v := by
  cases v
  simp only [Vec3.neg, Vec3.mk.injEq]
  refine ⟨by ring, by ring, by ring⟩

end AlgebraLemmas

/-- Claim C10: for every rigid transform `g` whose rotation block is
orthonormal (`R * R.T = 1`), `inverse_pose (inverse_pose g) = g` exactly
over the reals, the 3x4 / 4x4 shape (the `homog` flag) included. -/
theorem inverse_pose_involutive (g : Pose ℝ)
    (h : g.R.mul g.R.transpose = Mat3.one) :
    inverse_pose (inverse_pose g) = g := by
  cases g with
  | mk R t hm =>
    simp only [inverse_pose, Pose.mk.injEq] at h ⊢
    refine ⟨Mat3.transpose_transpose R, ?_, trivial⟩
    rw [Mat3.transpose_transpose, matVec_neg, Vec3.neg_neg, ← matVec_mul, h, matVec_one]

/-- Witness for C10 at the identity rotation with translation
`(1, 2, 3)` in homogeneous (4x4) shape. -/
theorem inverse_pose_involutive_witness :
    (Mat3.one : Mat3 ℝ).mul (Mat3.one : Mat3 ℝ).transpose = Mat3.one ∧
      inverse_pose (inverse_pose (⟨Mat3.one, ⟨1, 2, 3⟩, true⟩ : Pose ℝ)) =
        (⟨Mat3.one, ⟨1, 2, 3⟩, true⟩ : Pose ℝ) := by
  have h : (Mat3.one : Mat3 ℝ).mul (Mat3.one : Mat3 ℝ).transpose = Mat3.one := by
    simp only [Mat3.mul, Mat3.transpose, Mat3.one, Mat3.mk.injEq]
    norm_num
  exact ⟨h, inverse_pose_involutive ⟨Mat3.one, ⟨1, 2, 3⟩, true⟩ h⟩

/-- A `getD` at an index below the length is a member of the list. -/
theorem getD_mem_of_lt {α : Type} (l : List α) (d : α) {n : ℕ}
    (h : n < l.length) : l.getD n d ∈ l := by
  rw [List.getD_eq_getElem?_getD, List.getElem?_eq_getElem h]
  exact List.getElem_mem h

/-- Normal form of `construct_triplet`: the three window indices are
`0`, `temporal_interval` and `temporal_interval * 2`. -/
theorem construct_triplet_def (w : List Sample) (ti : ℕ) (s : ℚ) :
    construct_triplet w ti s =
      if normLT (compose_pose (inverse_pose ((w.getD ti default).gwc))
            ((w.getD 0 default).gwc)).t s ∨
         normLT (compose_pose (inverse_pose ((w.getD ti default).gwc))
            ((w.getD (ti * 2) default).gwc)).t s then
        Except.error ("Not enough parallel!!!")
      else
        Except.ok
          { rgb_concat :=
              hconcat ((w.getD 0 default).rgb)
                (hconcat ((w.getD ti default).rgb) ((w.getD (ti * 2) default).rgb)),
            gwc_concat :=
              [(w.getD 0 default).gwc, (w.getD ti default).gwc, (w.getD (ti * 2) default).gwc],
            Rg_concat :=
              [(w.getD 0 default).Rg, (w.getD ti default).Rg, (w.getD (ti * 2) default).Rg],
            dense_ref := (w.getD ti default).depth,
            ref_paths := (w.getD ti default).paths } := by
  show (if _ then _ else _) = _
  simp only [show List.range 3 = [0, 1, 2] from rfl, List.map_cons, List.map_nil,
    List.getD_cons_zero, List.getD_cons_succ, Nat.mul_zero, Nat.mul_one,
    Nat.zero_mul, Nat.one_mul, show 2 * ti = ti * 2 from Nat.mul_comm 2 ti]

/-- On success `ref_paths` is the middle sample's path set. -/
theorem construct_triplet_ok_ref_paths {w : List Sample} {ti : ℕ} {s : ℚ}
    {t : TripletOut} (h : construct_triplet w ti s = Except.ok t) :
    t.ref_paths = (w.getD ti default).paths := by
  rw [construct_triplet_def] at h
  split at h
  · exact absurd h (by simp)
  · cases h
    rfl

/-- Claim C1: for a full window, `construct_triplet` raises the
parallax-insufficient error iff the translation norm of
`invert(pose[mid]) ∘ pose[first]` or of `invert(pose[mid]) ∘ pose[last]`
is strictly below `spatial_interval`; a window whose two relative norms
both equal `spatial_interval` exactly succeeds; and (for a positive
threshold) a window of all-identical poses always raises. -/
theorem construct_triplet_parallax_iff (w : List Sample) (ti : ℕ) (s : ℚ)
    (hlen : w.length = 2 * ti + 1) :
    (isErr (construct_triplet w ti s) = true ↔
      Real.sqrt ((vnormSq (compose_pose (inverse_pose ((w.getD ti default).gwc))
          ((w.getD 0 default).gwc)).t : ℚ) : ℝ) < (s : ℝ) ∨
      Real.sqrt ((vnormSq (compose_pose (inverse_pose ((w.getD ti default).gwc))
          ((w.getD (ti * 2) default).gwc)).t : ℚ) : ℝ) < (s : ℝ)) ∧
    (Real.sqrt ((vnormSq (compose_pose (inverse_pose ((w.getD ti default).gwc))
          ((w.getD 0 default).gwc)).t : ℚ) : ℝ) = (s : ℝ) ∧
     Real.sqrt ((vnormSq (compose_pose (inverse_pose ((w.getD ti default).gwc))
          ((w.getD (ti * 2) default).gwc)).t : ℚ) : ℝ) = (s : ℝ) →
      isErr (construct_triplet w ti s) = false) ∧
    (0 < s → ∀ g0 : Pose ℚ, (∀ x ∈ w, x.gwc = g0) →
      isErr (construct_triplet w ti s) = true) := by
  rw [construct_triplet_def]
  refine ⟨?_, ?_, ?_⟩
  · split
    · exact iff_of_true rfl ‹_›
    · exact iff_of_false (fun hh => Bool.noConfusion hh) ‹_›
  · rintro ⟨h1, h2⟩
    have hn : ¬ (normLT (compose_pose (inverse_pose ((w.getD ti default).gwc))
          ((w.getD 0 default).gwc)).t s ∨
        normLT (compose_pose (inverse_pose ((w.getD ti default).gwc))
          ((w.getD (ti * 2) default).gwc)).t s) := by
      rw [normLT, normLT, h1, h2]
      simp
    rw [if_neg hn]
    rfl
  · intro hs g0 hall
    have h0 : (w.getD 0 default).gwc = g0 :=
      hall _ (getD_mem_of_lt w default (by omega))
    have hmid : (w.getD ti default).gwc = g0 :=
      hall _ (getD_mem_of_lt w default (by omega))
    have hzero : (compose_pose (inverse_pose g0) g0).t = Vec3.zero := by
      cases g0 with
      | mk R t hm =>
        simp only [compose_pose, inverse_pose, Vec3.add, Vec3.neg, matVec, Vec3.zero,
          Mat3.transpose, Vec3.mk.injEq]
        refine ⟨by ring, by ring, by ring⟩
    have hlt : normLT (compose_pose (inverse_pose ((w.getD ti default).gwc))
        ((w.getD 0 default).gwc)).t s := by
      rw [h0, hmid, hzero, normLT]
      have : vnormSq (Vec3.zero : Vec3 ℚ) = 0 := by
        simp [vnormSq, Vec3.zero]
      rw [this]
      simpa using by exact_mod_cast hs
    rw [if_pos (Or.inl hlt)]
    rfl

/-- Witness for C1 with a window of three identical-pose samples,
`temporal_interval = 1` and `spatial_interval = 1/100`. -/
theorem construct_triplet_parallax_iff_witness :
    [sampleAt 1 0, sampleAt 2 0, sampleAt 3 0].length = 2 * 1 + 1 ∧
      (isErr (construct_triplet [sampleAt 1 0, sampleAt 2 0, sampleAt 3 0] 1 (1 / 100)) = true ↔
        Real.sqrt ((vnormSq (compose_pose
            (inverse_pose (([sampleAt 1 0, sampleAt 2 0, sampleAt 3 0].getD 1 default).gwc))
            (([sampleAt 1 0, sampleAt 2 0, sampleAt 3 0].getD 0 default).gwc)).t : ℚ) : ℝ) <
          ((1 / 100 : ℚ) : ℝ) ∨
        Real.sqrt ((vnormSq (compose_pose
            (inverse_pose (([sampleAt 1 0, sampleAt 2 0, sampleAt 3 0].getD 1 default).gwc))
            (([sampleAt 1 0, sampleAt 2 0, sampleAt 3 0].getD (1 * 2) default).gwc)).t : ℚ) : ℝ) <
          ((1 / 100 : ℚ) : ℝ)) := by
  refine ⟨by decide, ?_⟩
  exact (construct_triplet_parallax_iff [sampleAt 1 0, sampleAt 2 0, sampleAt 3 0] 1 (1 / 100)
    (by decide)).1

/-- Claim C3: on success, `construct_triplet` on a full window returns
the three colour images at indices `0`, `temporal_interval`,
`2 * temporal_interval` concatenated along the horizontal axis in
temporal order, the poses and gravity rotations stacked in the same
order, the middle sample's depth map and the middle sample's output-path
set. -/
theorem construct_triplet_success_shape (w : List Sample) (ti : ℕ) (s : ℚ)
    (t : TripletOut) (hlen : w.length = 2 * ti + 1)
    (h : construct_triplet w ti s = Except.ok t) :
    t.rgb_concat =
      hconcat ((w.getD 0 default).rgb)
        (hconcat ((w.getD ti default).rgb) ((w.getD (2 * ti) default).rgb)) ∧
    t.gwc_concat =
      [(w.getD 0 default).gwc, (w.getD ti default).gwc, (w.getD (2 * ti) default).gwc] ∧
    t.Rg_concat =
      [(w.getD 0 default).Rg, (w.getD ti default).Rg, (w.getD (2 * ti) default).Rg] ∧
    t.dense_ref = (w.getD ti default).depth ∧
    t.ref_paths = (w.getD ti default).paths := by
  rw [construct_triplet_def] at h
  rw [Nat.mul_comm 2 ti]
  split at h
  · exact absurd h (by simp)
  · cases h
    exact ⟨rfl, rfl, rfl, rfl, rfl⟩

/-- Witness for C3 on a window of three samples with translations
0, 0.1, 0.2 (both relative norms 0.1 > 0.01, so construction
succeeds). -/
theorem construct_triplet_success_shape_witness :
    [sampleAt 1 0, sampleAt 2 (1 / 10), sampleAt 3 (2 / 10)].length = 2 * 1 + 1 ∧
    construct_triplet [sampleAt 1 0, sampleAt 2 (1 / 10), sampleAt 3 (2 / 10)] 1 (1 / 100) =
      Except.ok ((construct_triplet [sampleAt 1 0, sampleAt 2 (1 / 10), sampleAt 3 (2 / 10)]
        1 (1 / 100)).toOption.getD default) ∧
    ((construct_triplet [sampleAt 1 0, sampleAt 2 (1 / 10), sampleAt 3 (2 / 10)]
        1 (1 / 100)).toOption.getD default).rgb_concat =
      hconcat (([sampleAt 1 0, sampleAt 2 (1 / 10), sampleAt 3 (2 / 10)].getD 0 default).rgb)
        (hconcat (([sampleAt 1 0, sampleAt 2 (1 / 10), sampleAt 3 (2 / 10)].getD 1 default).rgb)
          (([sampleAt 1 0, sampleAt 2 (1 / 10), sampleAt 3 (2 / 10)].getD (2 * 1) default).rgb)) := by
  refine ⟨by decide, by rfl, ?_⟩
  exact (construct_triplet_success_shape
    [sampleAt 1 0, sampleAt 2 (1 / 10), sampleAt 3 (2 / 10)] 1 (1 / 100)
    ((construct_triplet [sampleAt 1 0, sampleAt 2 (1 / 10), sampleAt 3 (2 / 10)]
      1 (1 / 100)).toOption.getD default) (by decide) (by rfl)).1

/-- The length of a bounded push: one more element, clipped at the
capacity. -/
theorem ringPush_length {α : Type} (C : ℕ) (cb : List α) (a : α) :
    (ringPush C cb a).length = min (cb.length + 1) C := by
  simp only [ringPush, List.length_drop, List.length_append, List.length_cons,
    List.length_nil]
  omega

/-- Folding bounded pushes over a list keeps exactly the last `C`
elements of `init ++ l`. -/
theorem foldl_ringPush {α : Type} (C : ℕ) (init l : List α)
    (h : init.length ≤ C) :
    List.foldl (ringPush C) init l = (init ++ l).drop (init.length + l.length - C) := by
  induction l generalizing init with
  | nil =>
    have h0 : init.length + List.length ([] : List α) - C = 0 := by simp; omega
    rw [List.foldl_nil, List.append_nil, h0, List.drop_zero]
  | cons a l ih =>
    rw [List.foldl_cons, ih (ringPush C init a) (by rw [ringPush_length]; omega)]
    rw [ringPush_length]
    show ((init ++ [a]).drop (init.length + 1 - C) ++ l).drop _ = _
    rw [← List.drop_append_of_le_length (by simp), List.drop_drop]
    rw [List.append_assoc, List.singleton_append]
    congr 1
    simp only [List.length_cons]
    omega

/-- Claim C2: the sliding window has fixed capacity
`2 * temporal_interval + 1`; after `capacity + k` pushes it holds
exactly the last `capacity` pushed samples in push order, and the
middle (reference) sample then sits at index `temporal_interval`. -/
theorem sliding_window_fifo (ti k : ℕ) (l : List Sample)
    (h : l.length = (2 * ti + 1) + k) :
    List.foldl (ringPush (2 * ti + 1)) [] l = l.drop k ∧
    (List.foldl (ringPush (2 * ti + 1)) [] l).length = 2 * ti + 1 ∧
    (List.foldl (ringPush (2 * ti + 1)) [] l).get? ti = l.get? (k + ti) := by
  have hfold := foldl_ringPush (2 * ti + 1) [] l (by simp)
  simp only [List.nil_append, List.length_nil, Nat.zero_add] at hfold
  have hk : l.length - (2 * ti + 1) = k := by omega
  rw [hk] at hfold
  refine ⟨hfold, ?_, ?_⟩
  · rw [hfold, List.length_drop]
    omega
  · rw [hfold, List.get?_drop]

/-- Witness for C2 with `temporal_interval = 1` (capacity 3) and five
pushed samples: the window holds the last three, middle at index 1. -/
theorem sliding_window_fifo_witness :
    [sampleAt 1 0, sampleAt 2 0, sampleAt 3 0, sampleAt 4 0, sampleAt 5 0].length =
      (2 * 1 + 1) + 2 ∧
    List.foldl (ringPush (2 * 1 + 1)) []
      [sampleAt 1 0, sampleAt 2 0, sampleAt 3 0, sampleAt 4 0, sampleAt 5 0] =
      [sampleAt 1 0, sampleAt 2 0, sampleAt 3 0, sampleAt 4 0, sampleAt 5 0].drop 2 := by
  refine ⟨by decide, ?_⟩
  exact (sliding_window_fifo 1 2
    [sampleAt 1 0, sampleAt 2 0, sampleAt 3 0, sampleAt 4 0, sampleAt 5 0] (by decide)).1

/-- Counterexample to claim C4 as stated: for packet `now = 1`
(`now - dt = 0.975`) and capture streams starting at timestamp `1.5`,
the step consumes the `1.5` item from the stream (it is gone from the
remaining suffix) even though `1.5` lies at/beyond `now - dt`, and no
sample is produced for it — because the code draws one pair
unconditionally per reference record and discards the drawn candidate
whether it matches or not. -/
theorem sync_never_consumes_cex :
    stepPacket cfg2
        (initState [⟨3 / 2, pix 1⟩, ⟨2, pix 2⟩] [⟨3 / 2, [[1500]]⟩, ⟨2, [[1500]]⟩])
        ⟨1, poseList 0, (0, 0)⟩ =
      some { color := [⟨2, pix 2⟩], depth := [⟨2, [[1500]]⟩], circbuf := [],
             count := 0, attempts := 0, writes := [] } ∧
    (⟨3 / 2, pix 1⟩ : RGBMsg) ∈
      (initState [⟨3 / 2, pix 1⟩, ⟨2, pix 2⟩] [⟨3 / 2, [[1500]]⟩, ⟨2, [[1500]]⟩]).color ∧
    ¬ ((3 / 2 : ℚ) < (1 : ℚ) - dt) ∧
    (⟨3 / 2, pix 1⟩ : RGBMsg) ∉ ([⟨2, pix 2⟩] : List RGBMsg) := by
  refine ⟨by decide, by decide, by decide, by decide⟩

/-- Claim C4 (amended): for each reference timestamp, the loop consumes
from both paired streams exactly the items up to and including the first
one whose image timestamp is not earlier than `now - dt` (the candidate):
every item passed over before the candidate has timestamp `< now - dt`,
the candidate itself does not, and the candidate is also consumed —
removed from both streams in lockstep — whether or not the record is
then accepted. -/
theorem sync_advance_exact (now : ℚ) (rs : List RGBMsg) :
    ∀ (r : RGBMsg) (d : DepthMsg) (ds : List DepthMsg)
      (r' : RGBMsg) (d' : DepthMsg) (rs' : List RGBMsg) (ds' : List DepthMsg),
      catchUp now r d rs ds = some (r', d', rs', ds') →
      ∃ i, (r :: rs).get? i = some r' ∧ (d :: ds).get? i = some d' ∧
        rs' = (r :: rs).drop (i + 1) ∧ ds' = (d :: ds).drop (i + 1) ∧
        (∀ j x, j < i → (r :: rs).get? j = some x → x.ts < now - dt) ∧
        ¬ r'.ts < now - dt := by
  induction rs with
  | nil =>
    intro r d ds r' d' rs' ds' h
    rw [catchUp.eq_def] at h
    by_cases hlt1 : r.ts < now - dt
    · rw [if_pos hlt1] at h
      exact absurd h (by simp)
    · rw [if_neg hlt1] at h
      simp only [Option.some.injEq, Prod.mk.injEq] at h
      obtain ⟨h1, h2, h3, h4⟩ := h
      subst h1; subst h2; subst h3; subst h4
      exact ⟨0, rfl, rfl, rfl, rfl, fun j x hj => absurd hj (by omega), hlt1⟩
  | cons r2 rs2 ih =>
    intro r d ds r' d' rs' ds' h
    rw [catchUp.eq_def] at h
    by_cases hlt1 : r.ts < now - dt
    · rw [if_pos hlt1] at h
      cases ds with
      | nil => exact absurd h (by simp)
      | cons d2 ds2 =>
        obtain ⟨i, hr, hd2, hrs, hds, hlt, hge⟩ := ih r2 d2 ds2 r' d' rs' ds' h
        refine ⟨i + 1, by simpa using hr, by simpa using hd2, by simpa using hrs,
          by simpa using hds, ?_, hge⟩
        intro j x hj hx
        cases j with
        | zero =>
          simp only [List.get?_cons_zero, Option.some.injEq] at hx
          subst hx
          exact hlt1
        | succ j2 =>
          exact hlt j2 x (by omega) (by simpa using hx)
    · rw [if_neg hlt1] at h
      simp only [Option.some.injEq, Prod.mk.injEq] at h
      obtain ⟨h1, h2, h3, h4⟩ := h
      subst h1; subst h2; subst h3; subst h4
      exact ⟨0, rfl, rfl, rfl, rfl, fun j x hj => absurd hj (by omega), hlt1⟩

/-- Witness for the amended C4: with `now = 1` and stream timestamps
`0.9, 0.95, 1.0, 2.0`, the catch-up consumes the two stale items and
the candidate `1.0`. -/
theorem sync_advance_exact_witness :
    catchUp 1 (colorCatch.getD 0 default) (depthCatch.getD 0 default)
        (colorCatch.drop 1) (depthCatch.drop 1) =
      some (⟨1, pix 3⟩, ⟨1, [[1500]]⟩, [⟨2, pix 4⟩], [⟨2, [[1500]]⟩]) ∧
    ∃ i, ((colorCatch.getD 0 default) :: colorCatch.drop 1).get? i =
        some (⟨1, pix 3⟩ : RGBMsg) ∧
      ((depthCatch.getD 0 default) :: depthCatch.drop 1).get? i =
        some (⟨1, [[1500]]⟩ : DepthMsg) ∧
      ([⟨2, pix 4⟩] : List RGBMsg) =
        ((colorCatch.getD 0 default) :: colorCatch.drop 1).drop (i + 1) ∧
      ([⟨2, [[1500]]⟩] : List DepthMsg) =
        ((depthCatch.getD 0 default) :: depthCatch.drop 1).drop (i + 1) ∧
      (∀ j x, j < i →
        ((colorCatch.getD 0 default) :: colorCatch.drop 1).get? j = some x →
          x.ts < 1 - dt) ∧
      ¬ (⟨1, pix 3⟩ : RGBMsg).ts < 1 - dt := by
  refine ⟨by decide, ?_⟩
  exact sync_advance_exact 1 (colorCatch.drop 1)
    (colorCatch.getD 0 default) (depthCatch.getD 0 default) (depthCatch.drop 1)
    ⟨1, pix 3⟩ ⟨1, [[1500]]⟩ [⟨2, pix 4⟩] [⟨2, [[1500]]⟩] (by decide)

/-- Claim C5: a reference record whose candidate image timestamp, after
catching up, exceeds `now + dt` is skipped: the streams advance but the
sliding window, the accepted count, the attempt count and the written
artifacts are all unchanged, and the loop goes on (the step returns a
state rather than aborting). -/
theorem sync_skip_no_mutation (cfg : Config) (st : State) (p : Packet)
    (r : RGBMsg) (d : DepthMsg) (rs : List RGBMsg) (ds : List DepthMsg)
    (r' : RGBMsg) (d' : DepthMsg) (rs' : List RGBMsg) (ds' : List DepthMsg)
    (hc : st.color = r :: rs) (hd : st.depth = d :: ds)
    (hcu : catchUp p.ts r d rs ds = some (r', d', rs', ds'))
    (hskip : r'.ts > p.ts + dt) :
    stepPacket cfg st p = some { st with color := rs', depth := ds' } ∧
    (stepPacket cfg st p).map State.circbuf = some st.circbuf ∧
    (stepPacket cfg st p).map State.count = some st.count ∧
    (stepPacket cfg st p).map State.attempts = some st.attempts ∧
    (stepPacket cfg st p).map State.writes = some st.writes := by
  have hstep : stepPacket cfg st p = some { st with color := rs', depth := ds' } := by
    unfold stepPacket
    rw [hc, hd]
    simp only [hcu]
    rw [if_pos hskip]
  rw [hstep]
  exact ⟨rfl, rfl, rfl, rfl, rfl⟩

/-- Witness for C5: packet at `now = 1` against streams whose earliest
remaining timestamp is 2. -/
theorem sync_skip_no_mutation_witness :
    (initState [⟨2, pix 1⟩, ⟨3, pix 2⟩] [⟨2, [[1500]]⟩, ⟨3, [[1500]]⟩]).color =
      ⟨2, pix 1⟩ :: [⟨3, pix 2⟩] ∧
    catchUp (1 : ℚ) ⟨2, pix 1⟩ ⟨2, [[1500]]⟩ [⟨3, pix 2⟩] [⟨3, [[1500]]⟩] =
      some (⟨2, pix 1⟩, ⟨2, [[1500]]⟩, [⟨3, pix 2⟩], [⟨3, [[1500]]⟩]) ∧
    stepPacket cfg2 (initState [⟨2, pix 1⟩, ⟨3, pix 2⟩] [⟨2, [[1500]]⟩, ⟨3, [[1500]]⟩])
        ⟨1, poseList 0, (0, 0)⟩ =
      some { (initState [⟨2, pix 1⟩, ⟨3, pix 2⟩] [⟨2, [[1500]]⟩, ⟨3, [[1500]]⟩]) with
             color := [⟨3, pix 2⟩], depth := [⟨3, [[1500]]⟩] } := by
  refine ⟨by decide, by decide, ?_⟩
  exact (sync_skip_no_mutation cfg2
    (initState [⟨2, pix 1⟩, ⟨3, pix 2⟩] [⟨2, [[1500]]⟩, ⟨3, [[1500]]⟩])
    ⟨1, poseList 0, (0, 0)⟩ ⟨2, pix 1⟩ ⟨2, [[1500]]⟩ [⟨3, pix 2⟩] [⟨3, [[1500]]⟩]
    ⟨2, pix 1⟩ ⟨2, [[1500]]⟩ [⟨3, pix 2⟩] [⟨3, [[1500]]⟩]
    rfl rfl (by decide) (by decide)).1

/-- Claim C6: when `construct_triplet` raises on a full window, the step
writes no artifact (the write log is unchanged), the window holds
exactly the pushed buffer — the failed attempt itself changes nothing —
and the loop continues with the next record. -/
theorem failed_triplet_no_write (cfg : Config) (st : State) (p : Packet)
    (r : RGBMsg) (d : DepthMsg) (rs : List RGBMsg) (ds : List DepthMsg)
    (r' : RGBMsg) (d' : DepthMsg) (rs' : List RGBMsg) (ds' : List DepthMsg)
    (e : String)
    (hc : st.color = r :: rs) (hd : st.depth = d :: ds)
    (hcu : catchUp p.ts r d rs ds = some (r', d', rs', ds'))
    (hacc : ¬ r'.ts > p.ts + dt)
    (hfull : (ringPush (cfg.temporal_interval * 2 + 1) st.circbuf
        (mkSample cfg p r' d')).length = cfg.temporal_interval * 2 + 1)
    (herr : construct_triplet
        (ringPush (cfg.temporal_interval * 2 + 1) st.circbuf (mkSample cfg p r' d'))
        cfg.temporal_interval cfg.spatial_interval = Except.error e) :
    stepPacket cfg st p =
      some { color := rs', depth := ds',
             circbuf := ringPush (cfg.temporal_interval * 2 + 1) st.circbuf
               (mkSample cfg p r' d'),
             count := st.count + 1, attempts := st.attempts + 1,
             writes := st.writes } := by
  unfold stepPacket
  rw [hc, hd]
  simp only [hcu]
  rw [if_neg hacc, if_pos hfull, herr]

/-- Witness for C6: a full window of three identical-pose samples. -/
theorem failed_triplet_no_write_witness :
    construct_triplet
        (ringPush (cfg1.temporal_interval * 2 + 1)
          [sampleAt 1 0, sampleAt 2 0]
          (mkSample cfg1 ⟨3, poseList 0, (0, 0)⟩ ⟨3, pix 3⟩ ⟨3, [[1500]]⟩))
        cfg1.temporal_interval cfg1.spatial_interval =
      Except.error ("Not enough parallel!!!") ∧
    stepPacket cfg1
        { color := [⟨3, pix 3⟩], depth := [⟨3, [[1500]]⟩],
          circbuf := [sampleAt 1 0, sampleAt 2 0], count := 2, attempts := 0, writes := [] }
        ⟨3, poseList 0, (0, 0)⟩ =
      some { color := [], depth := [],
             circbuf := ringPush (cfg1.temporal_interval * 2 + 1)
               [sampleAt 1 0, sampleAt 2 0]
               (mkSample cfg1 ⟨3, poseList 0, (0, 0)⟩ ⟨3, pix 3⟩ ⟨3, [[1500]]⟩),
             count := 3, attempts := 1, writes := [] } := by
  refine ⟨by decide, ?_⟩
  exact failed_triplet_no_write cfg1
    { color := [⟨3, pix 3⟩], depth := [⟨3, [[1500]]⟩],
      circbuf := [sampleAt 1 0, sampleAt 2 0], count := 2, attempts := 0, writes := [] }
    ⟨3, poseList 0, (0, 0)⟩ ⟨3, pix 3⟩ ⟨3, [[1500]]⟩ [] [] ⟨3, pix 3⟩ ⟨3, [[1500]]⟩ [] []
    ("Not enough parallel!!!") rfl rfl (by decide) (by decide) (by decide) (by decide)

/-- Exhaustive description of a non-aborting step: it is a skip, a push
below capacity, a push with a successful triplet (one write appended),
or a push with a failed triplet (no write). -/
theorem stepPacket_cases (cfg : Config) (st : State) (p : Packet) (st' : State)
    (h : stepPacket cfg st p = some st') :
    ∃ r rs d ds r' d' rs' ds',
      st.color = r :: rs ∧ st.depth = d :: ds ∧
      catchUp p.ts r d rs ds = some (r', d', rs', ds') ∧
      ((r'.ts > p.ts + dt ∧ st' = { st with color := rs', depth := ds' }) ∨
       (¬ r'.ts > p.ts + dt ∧
        (((ringPush (cfg.temporal_interval * 2 + 1) st.circbuf (mkSample cfg p r' d')).length =
            cfg.temporal_interval * 2 + 1 ∧
          ((∃ t, construct_triplet
                (ringPush (cfg.temporal_interval * 2 + 1) st.circbuf (mkSample cfg p r' d'))
                cfg.temporal_interval cfg.spatial_interval = Except.ok t ∧
              st' = { color := rs', depth := ds',
                      circbuf := ringPush (cfg.temporal_interval * 2 + 1) st.circbuf
                        (mkSample cfg p r' d'),
                      count := st.count + 1, attempts := st.attempts + 1,
                      writes := st.writes ++
                        [{ rgbPath := t.ref_paths.rgb, rgbData := t.rgb_concat,
                           posePath := t.ref_paths.pose, poseGwc := t.gwc_concat,
                           poseRg := t.Rg_concat,
                           depthPath := t.ref_paths.depth, depthData := t.dense_ref,
                           midTs := ((ringPush (cfg.temporal_interval * 2 + 1) st.circbuf
                             (mkSample cfg p r' d')).getD cfg.temporal_interval default).ts }] }) ∨
           (∃ e, construct_triplet
                (ringPush (cfg.temporal_interval * 2 + 1) st.circbuf (mkSample cfg p r' d'))
                cfg.temporal_interval cfg.spatial_interval = Except.error e ∧
              st' = { color := rs', depth := ds',
                      circbuf := ringPush (cfg.temporal_interval * 2 + 1) st.circbuf
                        (mkSample cfg p r' d'),
                      count := st.count + 1, attempts := st.attempts + 1,
                      writes := st.writes }))) ∨
         ((ringPush (cfg.temporal_interval * 2 + 1) st.circbuf (mkSample cfg p r' d')).length ≠
            cfg.temporal_interval * 2 + 1 ∧
          st' = { color := rs', depth := ds',
                  circbuf := ringPush (cfg.temporal_interval * 2 + 1) st.circbuf
                    (mkSample cfg p r' d'),
                  count := st.count + 1, attempts := st.attempts,
                  writes := st.writes })))) := by
  unfold stepPacket at h
  split at h
  next r rs d ds hc hd =>
    split at h
    next r' d' rs' ds' hcu =>
      refine ⟨r, rs, d, ds, r', d', rs', ds', hc, hd, hcu, ?_⟩
      by_cases hskip : r'.ts > p.ts + dt
      · rw [if_pos hskip] at h
        cases h
        exact Or.inl ⟨hskip, rfl⟩
      · rw [if_neg hskip] at h
        simp only [] at h
        refine Or.inr ⟨hskip, ?_⟩
        by_cases hfull : (ringPush (cfg.temporal_interval * 2 + 1) st.circbuf
            (mkSample cfg p r' d')).length = cfg.temporal_interval * 2 + 1
        · rw [if_pos hfull] at h
          refine Or.inl ⟨hfull, ?_⟩
          rcases hct : construct_triplet
              (ringPush (cfg.temporal_interval * 2 + 1) st.circbuf (mkSample cfg p r' d'))
              cfg.temporal_interval cfg.spatial_interval with e | t <;> rw [hct] at h
          · cases h
            exact Or.inr ⟨e, rfl, rfl⟩
          · cases h
            exact Or.inl ⟨t, rfl, rfl⟩
        · rw [if_neg hfull] at h
          cases h
          exact Or.inr ⟨hfull, rfl⟩
    next hcu =>
      exact absurd h (by simp)
  next =>
    exact absurd h (by simp)

/-- Each non-aborting step preserves the counting invariant. -/
theorem stepPacket_loopInv (cfg : Config) (st : State) (p : Packet) (st' : State)
    (h : stepPacket cfg st p = some st') (hin : loopInv cfg st) :
    loopInv cfg st' := by
  obtain ⟨hlen, hatt⟩ := hin
  obtain ⟨r, rs, d, ds, r', d', rs', ds', hc, hd, hcu, hbr⟩ := stepPacket_cases cfg st p st' h
  have hpl := ringPush_length (cfg.temporal_interval * 2 + 1) st.circbuf (mkSample cfg p r' d')
  rcases hbr with ⟨_, rfl⟩ | ⟨_, hbr⟩
  · exact ⟨hlen, hatt⟩
  rcases hbr with ⟨hfull, hbr⟩ | ⟨hnfull, rfl⟩
  · rcases hbr with ⟨t, _, rfl⟩ | ⟨e, _, rfl⟩ <;>
    · simp only [loopInv]
      rw [hpl] at hfull ⊢
      omega
  · simp only [loopInv]
    rw [hpl] at hnfull ⊢
    omega

/-- A non-aborting run preserves the counting invariant. -/
theorem runPackets_loopInv (cfg : Config) (ps : List Packet) :
    ∀ (st st' : State), runPackets cfg st ps = some st' → loopInv cfg st →
      loopInv cfg st' := by
  induction ps with
  | nil =>
    intro st st' h hin
    cases h
    exact hin
  | cons p ps ih =>
    intro st st' h hin
    rw [runPackets] at h
    rcases hsp : stepPacket cfg st p with _ | st1 <;> rw [hsp] at h
    · exact absurd h (by simp)
    · exact ih st1 st' h (stepPacket_loopInv cfg st p st1 hsp hin)

/-- Claim C7: with `temporal_interval = 2` (capacity 5) and ten
reference records that all synchronize (accepted count 10),
`construct_triplet` is attempted exactly `10 - 5 + 1 = 6` times: once
when the window first fills and once per later push. -/
theorem ten_records_six_attempts (cfg : Config) (color : List RGBMsg)
    (depth : List DepthMsg) (ps : List Packet)
    (hti : cfg.temporal_interval = 2)
    (hcount : (runPackets cfg (initState color depth) ps).map State.count = some 10) :
    (runPackets cfg (initState color depth) ps).map State.attempts = some 6 := by
  rcases hrun : runPackets cfg (initState color depth) ps with _ | st <;>
    rw [hrun] at hcount
  · exact absurd hcount (by simp)
  · have hinv : loopInv cfg st := by
      refine runPackets_loopInv cfg ps _ st hrun ?_
      constructor
      · show ([] : List Sample).length = min 0 (cfg.temporal_interval * 2 + 1)
        simp
      · show 0 = 0 + 1 - (cfg.temporal_interval * 2 + 1)
        omega
    obtain ⟨_, hatt⟩ := hinv
    simp only [Option.map_some', Option.some.injEq] at hcount ⊢
    rw [hatt, hcount, hti]

/-- Witness for C7: the concrete ten-packet run in which every record
synchronizes exactly. -/
theorem ten_records_six_attempts_witness :
    (runPackets cfg2 (initState colorTen depthTen) pktsTen).map State.count = some 10 ∧
    (runPackets cfg2 (initState colorTen depthTen) pktsTen).map State.attempts = some 6 := by
  refine ⟨by decide, ?_⟩
  exact ten_records_six_attempts cfg2 colorTen depthTen pktsTen rfl (by decide)

/-- An element of a bounded push is an old element or the new one. -/
theorem ringPush_mem {α : Type} {C : ℕ} {cb : List α} {a x : α}
    (h : x ∈ ringPush C cb a) : x ∈ cb ∨ x = a := by
  have hx : x ∈ cb ++ [a] := List.mem_of_mem_drop h
  rcases List.mem_append.mp hx with h1 | h2
  · exact Or.inl h1
  · exact Or.inr (List.mem_singleton.mp h2)

/-- Each non-aborting step preserves the path-bookkeeping invariant. -/
theorem stepPacket_pathsInv (cfg : Config) (st : State) (p : Packet) (st' : State)
    (h : stepPacket cfg st p = some st') (hin : pathsInv cfg st) :
    pathsInv cfg st' := by
  obtain ⟨hbuf, hwr⟩ := hin
  obtain ⟨r, rs, d, ds, r', d', rs', ds', hc, hd, hcu, hbr⟩ := stepPacket_cases cfg st p st' h
  have hbuf' : ∀ s ∈ ringPush (cfg.temporal_interval * 2 + 1) st.circbuf (mkSample cfg p r' d'),
      s.paths = outputPaths cfg.output_dir (format4 s.ts) := by
    intro s hs
    rcases ringPush_mem hs with hold | rfl
    · exact hbuf s hold
    · rfl
  rcases hbr with ⟨_, rfl⟩ | ⟨_, hbr⟩
  · exact ⟨hbuf, hwr⟩
  rcases hbr with ⟨hfull, hbr⟩ | ⟨_, rfl⟩
  · rcases hbr with ⟨t, hct, rfl⟩ | ⟨e, _, rfl⟩
    · refine ⟨hbuf', ?_⟩
      intro w hw
      rcases List.mem_append.mp hw with hold | hnew
      · exact hwr w hold
      · have hmid : (ringPush (cfg.temporal_interval * 2 + 1) st.circbuf
            (mkSample cfg p r' d')).getD cfg.temporal_interval default ∈
            ringPush (cfg.temporal_interval * 2 + 1) st.circbuf (mkSample cfg p r' d') := by
          refine getD_mem_of_lt _ _ ?_
          rw [hfull]
          omega
        have hpaths := hbuf' _ hmid
        have href := construct_triplet_ok_ref_paths hct
        rw [List.mem_singleton.mp hnew]
        simp only []
        rw [href, hpaths]
        exact ⟨rfl, rfl, rfl⟩
    · exact ⟨hbuf', hwr⟩
  · exact ⟨hbuf', hwr⟩

/-- A non-aborting run preserves the path-bookkeeping invariant. -/
theorem runPackets_pathsInv (cfg : Config) (ps : List Packet) :
    ∀ (st st' : State), runPackets cfg st ps = some st' → pathsInv cfg st →
      pathsInv cfg st' := by
  induction ps with
  | nil =>
    intro st st' h hin
    cases h
    exact hin
  | cons p ps ih =>
    intro st st' h hin
    rw [runPackets] at h
    rcases hsp : stepPacket cfg st p with _ | st1 <;> rw [hsp] at h
    · exact absurd h (by simp)
    · exact ih st1 st' h (stepPacket_pathsInv cfg st p st1 hsp hin)

/-- Claim C9: every artifact write of a run uses three destination paths
that share one basename stem, the fixed 4-decimal formatting of the
middle (reference) window sample's reference-stream timestamp — not the
timestamp of the newest record that completed the window. -/
theorem write_paths_share_stem (cfg : Config) (color : List RGBMsg)
    (depth : List DepthMsg) (ps : List Packet) (st : State)
    (hrun : runPackets cfg (initState color depth) ps = some st)
    (w : WriteEvent) (hw : w ∈ st.writes) :
    w.rgbPath = cfg.output_dir ++ "/rgb/" ++ format4 w.midTs ++ ".jpg" ∧
    w.posePath = cfg.output_dir ++ "/pose/" ++ format4 w.midTs ++ ".pkl" ∧
    w.depthPath = cfg.output_dir ++ "/depth/" ++ format4 w.midTs ++ ".npy" := by
  have hinv : pathsInv cfg st := by
    refine runPackets_pathsInv cfg ps _ st hrun ?_
    exact ⟨fun s hs => absurd hs (by simp [initState]),
      fun v hv => absurd hv (by simp [initState])⟩
  exact (hinv.2 w hw)

/-- Witness for C9: the concrete three-packet run with
`temporal_interval = 1` emits one write, keyed by the middle timestamp
`2.0000` (not the newest, `3`). -/
theorem write_paths_share_stem_witness :
    runPackets cfg1 (initState colorThree depthThree) pktsThree =
      some ((runPackets cfg1 (initState colorThree depthThree) pktsThree).getD default) ∧
    (((runPackets cfg1 (initState colorThree depthThree) pktsThree).getD
        default).writes.getD 0 default) ∈
      ((runPackets cfg1 (initState colorThree depthThree) pktsThree).getD default).writes ∧
    (((runPackets cfg1 (initState colorThree depthThree) pktsThree).getD
        default).writes.getD 0 default).rgbPath =
      cfg1.output_dir ++ "/rgb/" ++
        format4 ((((runPackets cfg1 (initState colorThree depthThree) pktsThree).getD
          default).writes.getD 0 default).midTs) ++ ".jpg" := by
  refine ⟨by decide, by decide, ?_⟩
  exact (write_paths_share_stem cfg1 colorThree depthThree pktsThree
    ((runPackets cfg1 (initState colorThree depthThree) pktsThree).getD default)
    (by decide)
    (((runPackets cfg1 (initState colorThree depthThree) pktsThree).getD
      default).writes.getD 0 default)
    (by decide)).1

/-- The catch-up loop is driven by the image stream alone: depth items
enter only through their payloads. -/
theorem catchUp_depth_obs (now : ℚ) (rs : List RGBMsg) :
    ∀ (r : RGBMsg) (d1 d2 : DepthMsg) (ds1 ds2 : List DepthMsg),
      d1.depthRaw = d2.depthRaw →
      ds1.map DepthMsg.depthRaw = ds2.map DepthMsg.depthRaw →
      (catchUp now r d1 rs ds1).map cuObs = (catchUp now r d2 rs ds2).map cuObs := by
  induction rs with
  | nil =>
    intro r d1 d2 ds1 ds2 h1 h2
    rw [catchUp.eq_def, catchUp.eq_def]
    by_cases hlt : r.ts < now - dt
    · rw [if_pos hlt, if_pos hlt]
    · rw [if_neg hlt, if_neg hlt]
      simp [cuObs, h1, h2]
  | cons r2 rs2 ih =>
    intro r d1 d2 ds1 ds2 h1 h2
    rw [catchUp.eq_def, catchUp.eq_def]
    by_cases hlt : r.ts < now - dt
    · rw [if_pos hlt, if_pos hlt]
      cases ds1 with
      | nil =>
        cases ds2 with
        | nil => rfl
        | cons d2b ds2b => exact absurd h2 (by simp)
      | cons d1b ds1b =>
        cases ds2 with
        | nil => exact absurd h2 (by simp)
        | cons d2b ds2b =>
          simp only [List.map_cons, List.cons.injEq] at h2
          exact ih r2 d1b d2b ds1b ds2b h2.1 h2.2
    · rw [if_neg hlt, if_neg hlt]
      simp [cuObs, h1, h2]

/-- A step is determined, up to depth timestamps, by the
timestamp-free observables. -/
theorem stepPacket_depth_obs (cfg : Config) (p : Packet) :
    ∀ (st1 st2 : State), stObs st1 = stObs st2 →
      (stepPacket cfg st1 p).map stObs = (stepPacket cfg st2 p).map stObs := by
  intro st1 st2 hobs
  obtain ⟨c1, e1, cb1, n1, a1, w1⟩ := st1
  obtain ⟨c2, e2, cb2, n2, a2, w2⟩ := st2
  simp only [stObs, Prod.mk.injEq] at hobs
  obtain ⟨hcol, hdep, hcb, hn, ha, hw⟩ := hobs
  subst hcol; subst hcb; subst hn; subst ha; subst hw
  unfold stepPacket
  cases c1 with
  | nil => rfl
  | cons r rs =>
    cases e1 with
    | nil =>
      cases e2 with
      | nil => rfl
      | cons d2 ds2 => exact absurd hdep (by simp)
    | cons d1 ds1 =>
      cases e2 with
      | nil => exact absurd hdep (by simp)
      | cons d2 ds2 =>
        simp only [List.map_cons, List.cons.injEq] at hdep
        obtain ⟨hd0, hds⟩ := hdep
        have hcu := catchUp_depth_obs p.ts rs r d1 d2 ds1 ds2 hd0 hds
        rcases h1 : catchUp p.ts r d1 rs ds1 with _ | ⟨r1, e1', rs1, ds1'⟩ <;>
          rcases h2 : catchUp p.ts r d2 rs ds2 with _ | ⟨r2, e2', rs2, ds2'⟩
        · simp [h1, h2]
        · rw [h1, h2] at hcu
          exact absurd hcu (by simp)
        · rw [h1, h2] at hcu
          exact absurd hcu (by simp)
        · rw [h1, h2] at hcu
          simp only [Option.map_some', Option.some.injEq, cuObs, Prod.mk.injEq] at hcu
          obtain ⟨hr', he', hrs', hds'⟩ := hcu
          subst hr'; subst hrs'
          simp only [h1, h2]
          have hsample : mkSample cfg p r1 e1' = mkSample cfg p r1 e2' := by
            simp [mkSample, he']
          rw [hsample]
          by_cases hskip : r1.ts > p.ts + dt
          · rw [if_pos hskip, if_pos hskip]
            simp [stObs, hds']
          · rw [if_neg hskip, if_neg hskip]
            by_cases hfull : (ringPush (cfg.temporal_interval * 2 + 1) cb1
                (mkSample cfg p r1 e2')).length = cfg.temporal_interval * 2 + 1
            · rw [if_pos hfull, if_pos hfull]
              rcases hct : construct_triplet
                  (ringPush (cfg.temporal_interval * 2 + 1) cb1 (mkSample cfg p r1 e2'))
                  cfg.temporal_interval cfg.spatial_interval with e | t
              · simp [stObs, hds']
              · simp [stObs, hds']
            · rw [if_neg hfull, if_neg hfull]
              simp [stObs, hds']

/-- A run is determined, up to depth timestamps, by the timestamp-free
observables. -/
theorem runPackets_depth_obs (cfg : Config) (ps : List Packet) :
    ∀ (st1 st2 : State), stObs st1 = stObs st2 →
      (runPackets cfg st1 ps).map stObs = (runPackets cfg st2 ps).map stObs := by
  induction ps with
  | nil =>
    intro st1 st2 h
    simp only [runPackets, Option.map_some']
    rw [h]
  | cons p ps ih =>
    intro st1 st2 h
    rw [runPackets, runPackets]
    have hstep := stepPacket_depth_obs cfg p st1 st2 h
    rcases h1 : stepPacket cfg st1 p with _ | st1' <;>
      rcases h2 : stepPacket cfg st2 p with _ | st2'
    · rfl
    · rw [h1, h2] at hstep
      simp at hstep
    · rw [h1, h2] at hstep
      simp at hstep
    · rw [h1, h2] at hstep
      simp only [Option.map_some', Option.some.injEq] at hstep
      exact ih st1' st2' hstep

/-- Claim C8: which reference records are accepted, how far the cursors
advance, the window contents, the counters and the written artifacts
depend only on the image-stream timestamps, never on the depth-stream
timestamps: two runs whose depth streams carry the same payloads at the
same positions (timestamps free) have equal observables, pairing each
accepted record with the depth payload at the same stream position. -/
theorem depth_ts_noninterference (cfg : Config) (color : List RGBMsg)
    (ps : List Packet) (d1 d2 : List DepthMsg)
    (hd : d1.map DepthMsg.depthRaw = d2.map DepthMsg.depthRaw) :
    (runPackets cfg (initState color d1) ps).map stObs =
      (runPackets cfg (initState color d2) ps).map stObs := by
  refine runPackets_depth_obs cfg ps _ _ ?_
  simp [stObs, initState, hd]

/-- Witness for C8: depth streams at timestamps 1 versus 5/4 with the
same payload yield identical observables. -/
theorem depth_ts_noninterference_witness :
    ([⟨1, [[1500]]⟩] : List DepthMsg).map DepthMsg.depthRaw =
      ([⟨5 / 4, [[1500]]⟩] : List DepthMsg).map DepthMsg.depthRaw ∧
    (runPackets cfg2 (initState [⟨1, pix 1⟩] [⟨1, [[1500]]⟩])
        [⟨1, poseList 0, (0, 0)⟩]).map stObs =
      (runPackets cfg2 (initState [⟨1, pix 1⟩] [⟨5 / 4, [[1500]]⟩])
        [⟨1, poseList 0, (0, 0)⟩]).map stObs := by
  refine ⟨by decide, ?_⟩
  exact depth_ts_noninterference cfg2 [⟨1, pix 1⟩] [⟨1, poseList 0, (0, 0)⟩]
    [⟨1, [[1500]]⟩] [⟨5 / 4, [[1500]]⟩] (by decide)

end Visma2
